import Mathlib

/-!
Verification development for the `aml` crate (`src/aml/src/lib.rs`), the AML
(ACPI Machine Language) interpreter context.

The file shallowly embeds `AmlContext` and the operations of `lib.rs`
(`parse_table`, `invoke_method`, `initialize_objects`, `read_indexed_field`,
`write_indexed_field`, `store`, `current_arg`, `add_predefined_objects`) as
executable Lean functions.  The crate modules that are not part of `lib.rs`
(`namespace.rs`, `value.rs`, `opregion.rs`, `name_object.rs`, `parser.rs`,
`term_object.rs`) are modelled from the specification where the operations of
`lib.rs` depend on them; each such definition carries a doc comment starting
with `Modelled from the spec:`.

Machine integers (`u64`, `u8`) are represented as `Nat` with explicit
`% 2 ^ 64` / `% 256` reductions at the points where the Rust code can wrap,
and Rust panics (`unimplemented!()`, debug-mode shift overflow, `bit_field`
assertions) are represented by an explicit `panicked` outcome.
-/

/-- Name segments of AML names (4 ASCII characters in the source); modelled
as Lean strings. -/
abbrev NameSeg := String

/-- Modelled from the spec: `AmlName` (`name_object.rs`, not under `src/`):
"an absolute or relative path composed of an optional leading root marker,
zero or more parent markers, and a sequence of 4-byte segments". -/
structure AmlName where
  absolute : Bool
  parents : Nat
  segments : List NameSeg
deriving DecidableEq, Repr

/-- The root name `\`. -/
def AmlName.root : AmlName := ⟨true, 0, []⟩

/-- Types of namespace levels (`namespace.rs`, mirrored from the spec's
`typ ∈ {Scope, Device, Processor, PowerResource, ThermalZone, MethodLocals}`). -/
inductive LevelType where
  | Scope
  | Device
  | Processor
  | PowerResource
  | ThermalZone
  | MethodLocals
deriving DecidableEq, Repr

/-- Modelled from the spec: the `AmlType` tag of each `AmlValue` variant
(`value.rs`, not under `src/`), used by the implicit-conversion rules of
`store`. -/
inductive AmlType where
  | Uninitialized
  | Boolean
  | Integer
  | String
  | Buffer
  | BufferField
  | Package
  | OpRegion
  | FieldUnit
  | Method
  | Device
  | Mutex
  | Event
deriving DecidableEq, Repr

/-- The error type of the crate, transcribed from the `AmlError` enum of
`src/aml/src/lib.rs` (payloads kept where a claim can observe them). -/
inductive AmlError where
  | UnexpectedEndOfStream
  | UnexpectedByte (b : Nat)
  | MalformedStream
  | InvalidNameSeg
  | InvalidPkgLength
  | InvalidRegionPkgLength (region_bit_length : Nat) (raw_length : Nat)
  | InvalidFieldFlags
  | UnterminatedStringConstant
  | InvalidStringConstant
  | InvalidRegionSpace (b : Nat)
  | MalformedPackage
  | MalformedBuffer
  | WrongParser
  | FatalError
  | EmptyNamesAreInvalid
  | InvalidNormalizedName (n : AmlName)
  | RootHasNoParent
  | LevelDoesNotExist (n : AmlName)
  | ValueDoesNotExist (n : AmlName)
  | NameCollision (n : AmlName)
  | TriedToRemoveRootNamespace
  | NotExecutingControlMethod
  | InvalidArgAccess (n : Nat)
  | InvalidLocalAccess (n : Nat)
  | TooManyArgs
  | BreakInInvalidPosition
  | ContinueInInvalidPosition
  | PrtInvalidAddress
  | PrtInvalidPin
  | PrtInvalidSource
  | PrtInvalidGsi
  | PrtNoEntry
  | ReservedResourceType
  | ResourceDescriptorTooShort
  | ResourceDescriptorTooLong
  | UnexpectedResourceType
  | IncompatibleValueConversion (current : AmlType) (target : AmlType)
  | InvalidStatusObject
  | InvalidShiftLeft
  | InvalidShiftRight
  | FieldRegionIsNotOpRegion
  | FieldInvalidAddress
  | FieldInvalidAccessSize
  | TypeCannotBeCompared (t : AmlType)
  | TypeCannotBeSliced (t : AmlType)
  | TypeCannotBeWrittenToBufferField (t : AmlType)
  | BufferFieldIndexesOutOfBounds
  | InvalidSizeOfApplication (t : AmlType)
  | Timeout
  | Unimplemented
deriving DecidableEq, Repr

/-- Modelled from the spec: name resolution (`name_object.rs`, not under
`src/`): "an absolute name is used as-is; a relative name is applied at the
current scope; normalization fails if parent markers would escape the root".
The `scope` argument is expected to be absolute. -/
def AmlName.resolve (self scope : AmlName) : Except AmlError AmlName :=
  if self.absolute then .ok ⟨true, 0, self.segments⟩
  else
    match self.parents with
    | 0 => .ok ⟨true, 0, scope.segments ++ self.segments⟩
    | p + 1 =>
      if p + 1 ≤ scope.segments.length then
        .ok ⟨true, 0, scope.segments.take (scope.segments.length - (p + 1)) ++ self.segments⟩
      else .error (.InvalidNormalizedName self)

/-- Field access types, from the spec's field-flags model:
`{Any, Byte, Word, DWord, QWord, Buffer}` (`value.rs`, not under `src/`). -/
inductive FieldAccessType where
  | Any
  | Byte
  | Word
  | DWord
  | QWord
  | Buffer
deriving DecidableEq, Repr

/-- Field lock rule `{NoLock, Lock}` (`value.rs`, not under `src/`). -/
inductive FieldLockRule where
  | NoLock
  | Lock
deriving DecidableEq, Repr

/-- Field update rule `{Preserve, WriteAsOnes, WriteAsZeros}` (`value.rs`,
not under `src/`). -/
inductive FieldUpdateRule where
  | Preserve
  | WriteAsOnes
  | WriteAsZeros
deriving DecidableEq, Repr

/-- Modelled from the spec: "Field flags pack three orthogonal settings:
access type, lock rule, update rule" (`value.rs`, not under `src/`).  The
raw-byte packing is not needed by the claims, so the three settings are
stored directly; the accessors `access_type()` / `field_update_rule()` of the
source therefore cannot fail here. -/
structure FieldFlags where
  accessType : FieldAccessType
  lockRule : FieldLockRule
  updateRule : FieldUpdateRule
deriving DecidableEq, Repr

/-- Modelled from the spec: region address spaces of an `OpRegion`
(`value.rs`, not under `src/`).  Only `SystemIO` is exercised by the claims. -/
inductive RegionSpace where
  | systemMemory
  | systemIo
  | pciConfig
  | embeddedControl
  | smBus
  | cmos
  | pciBar
  | ipmi
deriving DecidableEq, Repr

/-- Modelled from the spec: the data of an `OpRegion` value
`{space, base, length, ..}`; a `FieldUnit` carries it inline here instead of
through a namespace handle (the handle indirection of `value.rs` is not
observable by any claim). -/
structure OpRegionInfo where
  space : RegionSpace
  base : Nat
  length : Nat
deriving DecidableEq, Repr

/-- The native methods installed by `lib.rs`.  The only host-callback method
the source creates is the `\_OSI` closure of `add_predefined_objects`, so the
`MethodCode::Native` function pointer is defunctionalized to this tag type. -/
inductive NativeMethod where
  | osi
deriving DecidableEq, Repr

/-- Method flags: arg-count (0-7), serialized flag, sync level (`value.rs`,
not under `src/`, modelled from the spec). -/
structure MethodFlags where
  argCount : Nat
  serialized : Bool
  syncLevel : Nat
deriving DecidableEq, Repr

/-- Method code: raw AML bytes or a native callback (`value.rs` /
`MethodCode`, modelled from the spec; the callback is the defunctionalized
`NativeMethod` tag). -/
inductive MethodCode where
  | aml (code : List Nat)
  | native (m : NativeMethod)

/-- Modelled from the spec: the `AmlValue` tagged union (`value.rs`, not
under `src/`).  Variants not needed by any claim are kept as payload-free
tags. -/
inductive AmlValue where
  | Boolean (b : Bool)
  | Integer (n : Nat)
  | String (s : NameSeg)
  | Buffer (bytes : List Nat)
  | Package (elems : List AmlValue)
  | OpRegion (region : OpRegionInfo)
  | FieldUnit (region : OpRegionInfo) (flags : FieldFlags) (offset : Nat) (length : Nat)
  | BufferField (data : List Nat) (offset : Nat) (length : Nat)
  | Method (flags : MethodFlags) (code : MethodCode)
  | Device
  | Mutex
  | Event
  | Uninitialized

/-- Modelled from the spec: the `AmlType` tag of a value (`value.rs`, not
under `src/`). -/
def AmlValue.type_of : AmlValue → AmlType
  | .Boolean _ => .Boolean
  | .Integer _ => .Integer
  | .String _ => .String
  | .Buffer _ => .Buffer
  | .Package _ => .Package
  | .OpRegion _ => .OpRegion
  | .FieldUnit _ _ _ _ => .FieldUnit
  | .BufferField _ _ _ => .BufferField
  | .Method _ _ => .Method
  | .Device => .Device
  | .Mutex => .Mutex
  | .Event => .Event
  | .Uninitialized => .Uninitialized

/-- `AmlValue::ones()` (`value.rs`, not under `src/`): the all-ones 64-bit
integer. -/
def AmlValue.ones : AmlValue := .Integer 0xffffffffffffffff

/-- `AmlValue::zero()` (`value.rs`, not under `src/`): integer zero. -/
def AmlValue.zero : AmlValue := .Integer 0

/-- Modelled from the spec: `AmlValue::as_integer` (`value.rs`, not under
`src/`): integers convert to themselves, booleans to all-ones/zero, buffers
to the little-endian image of their first eight bytes; other variants fail
with `IncompatibleValueConversion`. -/
def AmlValue.as_integer : AmlValue → Except AmlError Nat
  | .Integer n => .ok n
  | .Boolean b => .ok (if b then 0xffffffffffffffff else 0)
  | .Buffer bytes =>
    .ok ((bytes.take 8).foldr (fun b acc => (acc <<< 8) ||| (b % 256)) 0)
  | v => .error (.IncompatibleValueConversion v.type_of .Integer)

/-- Modelled from the spec: `AmlValue::as_string` (`value.rs`, not under
`src/`); only the identity case on strings is needed by the claims. -/
def AmlValue.as_string : AmlValue → Except AmlError NameSeg
  | .String s => .ok s
  | v => .error (.IncompatibleValueConversion v.type_of .String)

/-- The `_STA` status object (`value.rs`, not under `src/`), modelled from
the spec: "present=bit0, enabled=bit1, shown=bit2, functional=bit3". -/
structure StatusObject where
  present : Bool
  enabled : Bool
  show_in_ui : Bool
  functional : Bool
deriving DecidableEq, Repr

/-- Modelled from the spec: `StatusObject::default()` — a device without a
`_STA` object "is assumed fully present and functional". -/
def StatusObject.default : StatusObject := ⟨true, true, true, true⟩

/-- Modelled from the spec: `AmlValue::as_status` (`value.rs`, not under
`src/`): decodes the status bits of an integer; other variants fail with
`InvalidStatusObject`. -/
def AmlValue.as_status : AmlValue → Except AmlError StatusObject
  | .Integer v => .ok ⟨v.testBit 0, v.testBit 1, v.testBit 2, v.testBit 3⟩
  | _ => .error .InvalidStatusObject

/-- Modelled from the spec: a namespace level (`namespace.rs`, not under
`src/`): "a level carries a typ, a mapping from name-segment to child level,
and a mapping from name-segment to value". -/
inductive NamespaceLevel where
  | mk (typ : LevelType) (children : List (NameSeg × NamespaceLevel))
       (values : List (NameSeg × AmlValue))

/-- The `typ` of a level. -/
def NamespaceLevel.typ : NamespaceLevel → LevelType
  | .mk t _ _ => t

/-- The child map of a level. -/
def NamespaceLevel.children : NamespaceLevel → List (NameSeg × NamespaceLevel)
  | .mk _ c _ => c

/-- The value map of a level. -/
def NamespaceLevel.values : NamespaceLevel → List (NameSeg × AmlValue)
  | .mk _ _ v => v

/-- First-match lookup in a segment-keyed association list. -/
def lookupSeg {α : Type} : List (NameSeg × α) → NameSeg → Option α
  | [], _ => none
  | (a, b) :: rest, k => if a = k then some b else lookupSeg rest k

/-- Remove every entry with the given key from a segment-keyed association
list. -/
def removeSeg {α : Type} : List (NameSeg × α) → NameSeg → List (NameSeg × α)
  | [], _ => []
  | (a, b) :: rest, k =>
    if a = k then removeSeg rest k else (a, b) :: removeSeg rest k

/-- Replace the payload of every entry with the given key. -/
def replaceSeg {α : Type} : List (NameSeg × α) → NameSeg → α → List (NameSeg × α)
  | [], _, _ => []
  | (a, b) :: rest, k, v =>
    if a = k then (a, v) :: replaceSeg rest k v else (a, b) :: replaceSeg rest k v

/-- `Namespace::new()` (`namespace.rs`, not under `src/`): the root level. -/
def NamespaceLevel.empty : NamespaceLevel := .mk .Scope [] []

/-- Whether the level addressed by the segment path exists. -/
def levelExists : NamespaceLevel → List NameSeg → Bool
  | _, [] => true
  | .mk _ children _, seg :: rest =>
    match lookupSeg children seg with
    | none => false
    | some child => levelExists child rest

/-- Modelled from the spec: `Namespace::add_level` (`namespace.rs`, not under
`src/`): "creates the level; fails with `LevelDoesNotExist` if the parent
chain is missing (except that the root always exists) or `NameCollision` if a
level already exists with a different `typ`". -/
def addLevel : NamespaceLevel → List NameSeg → LevelType → Except AmlError NamespaceLevel
  | .mk t c v, [], typ =>
    if t = typ then .ok (.mk t c v) else .error (.NameCollision AmlName.root)
  | .mk t c v, seg :: rest, typ =>
    match rest with
    | [] =>
      match lookupSeg c seg with
      | some child =>
        if child.typ = typ then .ok (.mk t c v)
        else .error (.NameCollision ⟨true, 0, [seg]⟩)
      | none => .ok (.mk t (c ++ [(seg, .mk typ [] [])]) v)
    | _ :: _ =>
      match lookupSeg c seg with
      | some child =>
        match addLevel child rest typ with
        | .error e => .error e
        | .ok child2 => .ok (.mk t (replaceSeg c seg child2) v)
      | none => .error (.LevelDoesNotExist ⟨true, 0, seg :: rest⟩)

/-- Modelled from the spec: `Namespace::remove_level` (`namespace.rs`, not
under `src/`): "removes the level and all descendants; fails on root". -/
def removeLevel : NamespaceLevel → List NameSeg → Except AmlError NamespaceLevel
  | _, [] => .error .TriedToRemoveRootNamespace
  | .mk t c v, seg :: rest =>
    match rest with
    | [] =>
      match lookupSeg c seg with
      | none => .error (.LevelDoesNotExist ⟨true, 0, [seg]⟩)
      | some _ => .ok (.mk t (removeSeg c seg) v)
    | _ :: _ =>
      match lookupSeg c seg with
      | none => .error (.LevelDoesNotExist ⟨true, 0, seg :: rest⟩)
      | some child =>
        match removeLevel child rest with
        | .error e => .error e
        | .ok child2 => .ok (.mk t (replaceSeg c seg child2) v)

/-- Modelled from the spec: `Namespace::add_value` (`namespace.rs`, not under
`src/`): "inserts a value under the named parent level; fails on missing
parent or duplicate". -/
def addValue : NamespaceLevel → List NameSeg → AmlValue → Except AmlError NamespaceLevel
  | _, [], _ => .error .EmptyNamesAreInvalid
  | .mk t c v, seg :: rest, value =>
    match rest with
    | [] =>
      match lookupSeg v seg with
      | some _ => .error (.NameCollision ⟨true, 0, [seg]⟩)
      | none => .ok (.mk t c (v ++ [(seg, value)]))
    | _ :: _ =>
      match lookupSeg c seg with
      | some child =>
        match addValue child rest value with
        | .error e => .error e
        | .ok child2 => .ok (.mk t (replaceSeg c seg child2) v)
      | none => .error (.LevelDoesNotExist ⟨true, 0, seg :: rest⟩)

/-- Modelled from the spec: `Namespace::get_by_path` (`namespace.rs`, not
under `src/`): absolute lookup of a value. -/
def getByPath : NamespaceLevel → List NameSeg → Except AmlError AmlValue
  | _, [] => .error (.ValueDoesNotExist AmlName.root)
  | .mk _ c v, seg :: rest =>
    match rest with
    | [] =>
      match lookupSeg v seg with
      | some value => .ok value
      | none => .error (.ValueDoesNotExist ⟨true, 0, [seg]⟩)
    | _ :: _ =>
      match lookupSeg c seg with
      | some child => getByPath child rest
      | none => .error (.LevelDoesNotExist ⟨true, 0, seg :: rest⟩)

/-- Modelled from the spec: in-place value update behind
`Namespace::get_mut` (`namespace.rs`, not under `src/`). -/
def replaceValue : NamespaceLevel → List NameSeg → AmlValue → Except AmlError NamespaceLevel
  | _, [], _ => .error (.ValueDoesNotExist AmlName.root)
  | .mk t c v, seg :: rest, value =>
    match rest with
    | [] =>
      match lookupSeg v seg with
      | some _ => .ok (.mk t c (replaceSeg v seg value))
      | none => .error (.ValueDoesNotExist ⟨true, 0, [seg]⟩)
    | _ :: _ =>
      match lookupSeg c seg with
      | some child =>
        match replaceValue child rest value with
        | .error e => .error e
        | .ok child2 => .ok (.mk t (replaceSeg c seg child2) v)
      | none => .error (.LevelDoesNotExist ⟨true, 0, seg :: rest⟩)

/-- One host-interface interaction.  The `Handler` trait is external to the
core, so it is embedded as a recorded trace of I/O calls together with the
values the host returned; only the byte-wide port accessors are exercised by
the claims. -/
inductive IoOp where
  | readIo8 (port : Nat) (value : Nat)
  | writeIo8 (port : Nat) (value : Nat)
deriving DecidableEq, Repr

/-- The host interface state: the byte each I/O port currently reads as, and
the trace of calls the interpreter has issued. -/
structure Host where
  ioPorts : List (Nat × Nat)
  trace : List IoOp
deriving DecidableEq, Repr

/-- Arguments of a method invocation (`value::Args`, not under `src/`):
"an args record (up to 7)". -/
abbrev Args := List AmlValue

/-- `Args::arg` (`value.rs`, not under `src/`, modelled from the spec):
fetch an argument by number. -/
def argsArg (args : Args) (n : Nat) : Except AmlError AmlValue :=
  match args.get? n with
  | some v => .ok v
  | none => .error (.InvalidArgAccess n)

/-- `Args::store_arg` (`value.rs`, not under `src/`, modelled from the spec):
overwrite an argument by number. -/
def argsStoreArg (args : Args) (n : Nat) (v : AmlValue) : Except AmlError Args :=
  if n < args.length then .ok (args.set n v) else .error (.InvalidArgAccess n)

/-- `MethodContext` of `lib.rs`: "8 local slots (each an optional value) and
the invocation's arguments". -/
structure MethodContext where
  locals : List (Option AmlValue)
  args : Args

/-- `MethodContext::new` of `lib.rs`: clears the locals and installs the
arguments. -/
def MethodContext.new (args : Args) : MethodContext :=
  ⟨List.replicate 8 none, args⟩

/-- `AmlContext` of `lib.rs`.  The diagnostic fields `scope_indent` and
`debug_verbosity` only drive log output and are omitted; `handler` is the
`Host` trace state; the field `ns` is the source's `namespace` (a Lean
keyword). -/
structure AmlContext where
  host : Host
  ns : NamespaceLevel
  method_context : Option MethodContext
  current_scope : AmlName

/-- Lookup of a port's current byte in the host state. -/
def lookupPort : List (Nat × Nat) → Nat → Option Nat
  | [], _ => none
  | (a, b) :: rest, k => if a = k then some b else lookupPort rest k

/-- `Handler::read_io_u8`: returns the port's current byte and records the
call. -/
def readIoU8 (ctx : AmlContext) (port : Nat) : AmlContext × Nat :=
  let v := (lookupPort ctx.host.ioPorts port).getD 0 % 256
  ({ ctx with host := { ctx.host with trace := ctx.host.trace ++ [.readIo8 port v] } }, v)

/-- `Handler::write_io_u8`: records the call. -/
def writeIoU8 (ctx : AmlContext) (port : Nat) (v : Nat) : AmlContext :=
  { ctx with host := { ctx.host with trace := ctx.host.trace ++ [.writeIo8 port v] } }

/-- Outcome of an operation that can also hit a Rust panic
(`unimplemented!()`, debug-mode shift overflow, `bit_field` range/fit
assertions). -/
inductive PResult (α : Type) where
  | ok (a : α)
  | err (e : AmlError)
  | panicked

/-- Modelled from the spec: `AmlValue::read_field` (`opregion.rs`, not under
`src/`): a field read decodes into host accesses for the region space.  Only
the case the claims exercise — a byte-aligned whole-byte field over.a
`SystemIO` region — is implemented; other shapes return `Unimplemented`. -/
def read_field (field : AmlValue) (ctx : AmlContext) : AmlContext × Except AmlError AmlValue :=
  match field with
  | .FieldUnit region _flags offset length =>
    match region.space with
    | .systemIo =>
      if offset % 8 = 0 ∧ length = 8 then
        let r := readIoU8 ctx (region.base + offset / 8)
        (r.1, .ok (.Integer r.2))
      else (ctx, .error .Unimplemented)
    | _ => (ctx, .error .Unimplemented)
  | _ => (ctx, .error .Unimplemented)

/-- Modelled from the spec: `AmlValue::write_field` (`opregion.rs`, not under
`src/`).  For a byte-aligned whole-byte `SystemIO` field the store covers the
entire access width, so every update rule degenerates to one
`write_io_u8` of the value's low byte (this is the trace the spec's indexed
field scenario prescribes); other shapes return `Unimplemented`. -/
def write_field (field : AmlValue) (value : AmlValue) (ctx : AmlContext) :
    AmlContext × Except AmlError Unit :=
  match field with
  | .FieldUnit region _flags offset length =>
    match region.space with
    | .systemIo =>
      if offset % 8 = 0 ∧ length = 8 then
        match value.as_integer with
        | .error e => (ctx, .error e)
        | .ok v => (writeIoU8 ctx (region.base + offset / 8) (v % 256), .ok ())
      else (ctx, .error .Unimplemented)
    | _ => (ctx, .error .Unimplemented)
  | _ => (ctx, .error .Unimplemented)

/-- Number of binary digits of `m`, with structural fuel so that the
definition reduces by computation (the fuel `m` always suffices since
`m < 2 ^ m`). -/
def bitLenAux : Nat → Nat → Nat
  | 0, _ => 0
  | fuel + 1, m => if m = 0 then 0 else bitLenAux fuel (m / 2) + 1

/-- Number of binary digits of `m`. -/
def bitLen (m : Nat) : Nat := bitLenAux m m

/-- `u64::next_power_of_two`. -/
def nextPow2 (n : Nat) : Nat :=
  if n ≤ 1 then 1 else 2 ^ bitLen (n - 1)

/-- The access size computed identically at the head of
`AmlContext::read_indexed_field` and `AmlContext::write_indexed_field`
(`lib.rs`): the per-access-type minimum (in bits: 8/16/32/64, with `Any` and
`Buffer` treated as 8), or the field length rounded up to the next power of
two, whichever is larger. -/
def accessWidth (flags : FieldFlags) (length : Nat) : Nat :=
  let min_access_size :=
    match flags.accessType with
    | .Any => 8
    | .Byte => 8
    | .Word => 16
    | .DWord => 32
    | .QWord => 64
    | .Buffer => 8
  max min_access_size (nextPow2 length)

/-- `u64` bit-set as performed by `bit_field`'s
`field_value.set_bits(0..length, value)`: clears bits `0..length` and ors the
value in (the caller guards the crate's fit assertions). -/
def setBits64 (w : Nat) (length : Nat) (v : Nat) : Nat :=
  ((w >>> length) <<< length) ||| (v % 2 ^ length)

/-- The loop body of `AmlContext::read_indexed_field` (`lib.rs`): for each
`i` in `0..access_size`, write `offset + i` to the index register, read the
data register, and or the byte into the accumulator at bit `i * 8`.
A shift amount of 64 or more is a `u64` shift overflow in Rust
(panic in debug builds), represented by `panicked`. -/
def readIndexedLoop (index_register data_register : AmlValue) (offset : Nat) :
    List Nat → Nat → AmlContext → AmlContext × PResult Nat
  | [], result, ctx => (ctx, .ok result)
  | i :: rest, result, ctx =>
    let byte_offset := (offset + i) % 2 ^ 64
    match write_field index_register (.Integer byte_offset) ctx with
    | (ctx, .error e) => (ctx, .err e)
    | (ctx, .ok _) =>
      match read_field data_register ctx with
      | (ctx, .error e) => (ctx, .err e)
      | (ctx, .ok v) =>
        match v.as_integer with
        | .error e => (ctx, .err e)
        | .ok byte =>
          if i * 8 < 64 then
            readIndexedLoop index_register data_register offset rest
              (result ||| (byte <<< (i * 8)) % 2 ^ 64) ctx
          else (ctx, .panicked)

/-- `AmlContext::read_indexed_field` (`lib.rs`). -/
def read_indexed_field (index_register data_register : AmlValue)
    (flags : FieldFlags) (offset length : Nat) (ctx : AmlContext) :
    AmlContext × PResult AmlValue :=
  let access_size := accessWidth flags length
  match readIndexedLoop index_register data_register offset
      (List.range access_size) 0 ctx with
  | (ctx, .ok r) => (ctx, .ok (.Integer r))
  | (ctx, .err e) => (ctx, .err e)
  | (ctx, .panicked) => (ctx, .panicked)

/-- The write loop of `AmlContext::write_indexed_field` (`lib.rs`): for each
`i` in `0..access_size`, extract byte `i` of the field value (a `u64` shift
that overflows — debug-mode panic — once `i * 8` reaches 64), write
`offset + i` to the index register and the byte to the data register. -/
def writeIndexedLoop (index_register data_register : AmlValue) (offset : Nat)
    (field_value : Nat) : List Nat → AmlContext → AmlContext × PResult Unit
  | [], ctx => (ctx, .ok ())
  | i :: rest, ctx =>
    if i * 8 < 64 then
      let byte_offset := (offset + i) % 2 ^ 64
      let byte := (field_value >>> (i * 8)) &&& 0xff
      match write_field index_register (.Integer byte_offset) ctx with
      | (ctx, .error e) => (ctx, .err e)
      | (ctx, .ok _) =>
        match write_field data_register (.Integer byte) ctx with
        | (ctx, .error e) => (ctx, .err e)
        | (ctx, .ok _) =>
          writeIndexedLoop index_register data_register offset field_value rest ctx
    else (ctx, .panicked)

/-- `AmlContext::write_indexed_field` (`lib.rs`): `Preserve` first reads the
field through `read_indexed_field`; `WriteAsOnes`/`WriteAsZeros` start from
the all-ones/all-zero mask; the new bits are set with
`field_value.set_bits(0..length, value)` (whose `bit_field` assertions —
range beyond 64 bits or a value that does not fit — panic), and the bytes
are written through the index/data pair. -/
def write_indexed_field (index_register data_register : AmlValue)
    (flags : FieldFlags) (offset length : Nat) (value : AmlValue)
    (ctx : AmlContext) : AmlContext × PResult Unit :=
  let initStep : AmlContext × PResult Nat :=
    match flags.updateRule with
    | .Preserve =>
      match read_indexed_field index_register data_register flags offset length ctx with
      | (ctx, .ok v) =>
        match v.as_integer with
        | .ok n => (ctx, .ok n)
        | .error e => (ctx, .err e)
      | (ctx, .err e) => (ctx, .err e)
      | (ctx, .panicked) => (ctx, .panicked)
    | .WriteAsOnes => (ctx, .ok 0xffffffffffffffff)
    | .WriteAsZeros => (ctx, .ok 0)
  match initStep with
  | (ctx, .err e) => (ctx, .err e)
  | (ctx, .panicked) => (ctx, .panicked)
  | (ctx, .ok fv0) =>
    match value.as_integer with
    | .error e => (ctx, .err e)
    | .ok v =>
      if length ≤ 64 ∧ v < 2 ^ length then
        writeIndexedLoop index_register data_register offset
          (setBits64 fv0 length v) (List.range (accessWidth flags length)) ctx
      else (ctx, .panicked)

/-- Modelled from the spec: `Target` (`name_object.rs`, not under `src/`):
the possible destinations of a store. -/
inductive Target where
  | null
  | name (path : AmlName)
  | debug
  | arg (n : Nat)
  | local (n : Nat)

/-- Modelled from the spec: `Namespace::search` (`namespace.rs`, not under
`src/`): "performs ACPI name resolution, returning (absolute-name, handle)" —
a single unprefixed segment is searched up the scope chain, any other name is
resolved once against the current scope (§5.3 of ACPI).  The handle is
represented by the value found together with its absolute name. -/
def searchUp (ns : NamespaceLevel) (seg : NameSeg) :
    List NameSeg → Except AmlError (AmlName × AmlValue)
  | [] =>
    match getByPath ns [seg] with
    | .ok v => .ok (⟨true, 0, [seg]⟩, v)
    | .error _ => .error (.ValueDoesNotExist ⟨false, 0, [seg]⟩)
  | scope@(_ :: _) =>
    match getByPath ns (scope ++ [seg]) with
    | .ok v => .ok (⟨true, 0, scope ++ [seg]⟩, v)
    | .error _ => searchUp ns seg scope.dropLast
termination_by scope => scope.length
decreasing_by simp_all [List.length_dropLast]

/-- Modelled from the spec: `Namespace::search` (see `searchUp`). -/
def search (ns : NamespaceLevel) (path : AmlName) (scope : AmlName) :
    Except AmlError (AmlName × AmlValue) :=
  match path with
  | ⟨false, 0, [seg]⟩ => searchUp ns seg scope.segments
  | _ =>
    match path.resolve scope with
    | .error e => .error e
    | .ok abs =>
      match getByPath ns abs.segments with
      | .ok v => .ok (abs, v)
      | .error e => .error e

/-- `AmlContext::current_arg` (`lib.rs`): "can only be executed from inside a
control method". -/
def current_arg (ctx : AmlContext) (n : Nat) : Except AmlError AmlValue :=
  match ctx.method_context with
  | none => .error .NotExecutingControlMethod
  | some mc => argsArg mc.args n

/-- Modelled from the spec: §19.3.5.8 implicit conversion `as_type`
(`value.rs`, not under `src/`): a value whose type already matches is kept,
integer/string conversions apply the ACPI rules, anything else fails with
`IncompatibleValueConversion`. -/
def AmlValue.as_type (v : AmlValue) (typ : AmlType) : Except AmlError AmlValue :=
  if v.type_of = typ then .ok v
  else
    match typ with
    | .Integer => v.as_integer.map .Integer
    | .String => v.as_string.map .String
    | _ => .error (.IncompatibleValueConversion v.type_of typ)

/-- `AmlContext::store` (`lib.rs`): a store into a `Target` per §19.3.5.8.
`Target::Name` converts and writes through the namespace (field units go
through `write_field`/`read_field`; the `BufferField` arm calls
`write_buffer_field` of `value.rs`, which is not under `src/` and not needed
by any claim, so it is left as `Unimplemented`); `Target::Debug` is
`unimplemented!()` in the source, i.e. a panic; `Arg`/`Local` copy verbatim
into the active method frame; `Target::Null` returns the value unchanged. -/
def store (ctx : AmlContext) (target : Target) (value : AmlValue) :
    AmlContext × PResult AmlValue :=
  match target with
  | .name path =>
    match search ctx.ns path ctx.current_scope with
    | .error e => (ctx, .err e)
    | .ok (abs, existing) =>
      match existing.type_of with
      | .FieldUnit =>
        match write_field existing value ctx with
        | (ctx, .error e) => (ctx, .err e)
        | (ctx, .ok _) =>
          match read_field existing ctx with
          | (ctx, .error e) => (ctx, .err e)
          | (ctx, .ok v) => (ctx, .ok v)
      | .BufferField => (ctx, .err .Unimplemented)
      | typ =>
        match value.as_type typ with
        | .error e => (ctx, .err e)
        | .ok converted =>
          match replaceValue ctx.ns abs.segments converted with
          | .error e => (ctx, .err e)
          | .ok ns2 => ({ ctx with ns := ns2 }, .ok converted)
  | .debug =>
    -- `unimplemented!()` in the source: the store panics.
    (ctx, .panicked)
  | .arg n =>
    match ctx.method_context with
    | none => (ctx, .err .NotExecutingControlMethod)
    | some mc =>
      match argsStoreArg mc.args n value with
      | .error e => (ctx, .err e)
      | .ok args2 =>
        ({ ctx with method_context := some { mc with args := args2 } }, .ok value)
  | .local n =>
    match ctx.method_context with
    | none => (ctx, .err .NotExecutingControlMethod)
    | some mc =>
      ({ ctx with method_context := some { mc with locals := mc.locals.set n (some value) } },
       .ok value)
  | .null => (ctx, .ok value)

/-- The `\_OSI` capability decision of `add_predefined_objects` (`lib.rs`),
transcribed arm for arm (including the arms that answer `false`). -/
def osiSupport (s : NameSeg) : Bool :=
  if s = "Windows 2000" then true
  else if s = "Windows 2001" then true
  else if s = "Windows 2001 SP1" then true
  else if s = "Windows 2001 SP2" then true
  else if s = "Windows 2001.1" then true
  else if s = "Windows 2001.1 SP1" then true
  else if s = "Windows 2006" then true
  else if s = "Windows 2006 SP1" then true
  else if s = "Windows 2006 SP2" then true
  else if s = "Windows 2006.1" then true
  else if s = "Windows 2009" then true
  else if s = "Windows 2012" then true
  else if s = "Windows 2013" then true
  else if s = "Windows 2015" then true
  else if s = "Windows 2016" then true
  else if s = "Windows 2017" then true
  else if s = "Windows 2017.2" then true
  else if s = "Windows 2018" then true
  else if s = "Windows 2018.2" then true
  else if s = "Windows 2019" then true
  else if s = "Darwin" then true
  else if s = "Linux" then false
  else if s = "Extended Address Space Descriptor" then true
  else if s = "Module Device" then false
  else if s = "3.0 Thermal Model" then true
  else if s = "3.0 _SCP Extensions" then true
  else if s = "Processor Aggregator Device" then false
  else false

/-- The `\_OSI` native-method body installed by `add_predefined_objects`
(`lib.rs`): reads argument 0, converts it to a string and answers all-ones or
zero according to the allow-list. -/
def runNative : NativeMethod → AmlContext → AmlContext × Except AmlError AmlValue
  | .osi, ctx =>
    (ctx,
      match current_arg ctx 0 with
      | .error e => .error e
      | .ok v =>
        match v.as_string with
        | .error e => .error e
        | .ok s => .ok (cond (osiSupport s) AmlValue.ones AmlValue.zero))

/-- The outcome of parsing a term list (`parser.rs` `Propagate` plus the
success case): `ok` is a completed parse, `ret`/`brk`/`cont` are the
`Return`/`Break`/`Continue` propagation values, `err` a user error
(`Propagate::Err`; `AmlError::WrongParser` is one of its payloads). -/
inductive MethodOutcome where
  | ok
  | ret (value : AmlValue)
  | brk
  | cont
  | err (e : AmlError)

/-- The nested `term_list(...).parse(code, self)` of `term_object.rs` is not
under `src/`; the claims about `lib.rs` hold for every body behaviour, so the
body parser is abstracted as a state transformer producing a
`MethodOutcome`. -/
abbrev BodyExec := List Nat → AmlContext → AmlContext × MethodOutcome

/-- The frame installed by `invoke_method` (`lib.rs`) before running a
method's body: locals cleared, arguments set, scope moved to the method's
name, `MethodLocals` level already added. -/
def framedCtx (ctx : AmlContext) (path : AmlName) (args : Args)
    (ns1 : NamespaceLevel) : AmlContext :=
  { ctx with
    method_context := some (MethodContext.new args)
    current_scope := path
    ns := ns1 }

/-- The body dispatch of `invoke_method` (`lib.rs`): an AML body runs through
the nested parse and its propagation value is decoded (completion is the
implicit `Integer 0`, `Return` carries the result, `Break`/`Continue` become
the invalid-position errors); a native body runs its callback. -/
def runMethodBody (exec : BodyExec) (code : MethodCode) (ctx : AmlContext) :
    AmlContext × Except AmlError AmlValue :=
  match code with
  | .aml c =>
    let r := exec c ctx
    (r.1,
      match r.2 with
      | .ok => .ok (.Integer 0)
      | .ret v => .ok v
      | .brk => .error .BreakInInvalidPosition
      | .cont => .error .ContinueInInvalidPosition
      | .err e => .error e)
  | .native m => runNative m ctx

/-- `AmlContext::invoke_method` (`lib.rs`): resolve the path; a non-method
value is returned verbatim; a method saves the current frame and scope,
installs a fresh frame, adds the `MethodLocals` level, runs the body, removes
the level (`?` — an error here propagates without restoring), and restores
the saved frame and scope. -/
def invoke_method (exec : BodyExec) (ctx : AmlContext) (path : AmlName)
    (args : Args) : AmlContext × Except AmlError AmlValue :=
  match getByPath ctx.ns path.segments with
  | .error e => (ctx, .error e)
  | .ok (.Method _flags code) =>
    let old_context := ctx.method_context
    let old_scope := ctx.current_scope
    match addLevel ctx.ns path.segments .MethodLocals with
    | .error e =>
      ({ ctx with method_context := some (MethodContext.new args), current_scope := path },
       .error e)
    | .ok ns1 =>
      let r := runMethodBody exec code (framedCtx ctx path args ns1)
      match removeLevel r.1.ns path.segments with
      | .error e => (r.1, .error e)
      | .ok ns2 =>
        ({ r.1 with ns := ns2, method_context := old_context, current_scope := old_scope },
         r.2)
  | .ok value => (ctx, .ok value)

/-- `AmlContext::parse_table` (`lib.rs`): an empty stream fails with
`UnexpectedEndOfStream` before anything is parsed; otherwise the whole table
runs as one `term_list` (through the abstracted body parser) and a
non-`Err` propagation value is reported as `MalformedStream`. -/
def parse_table (exec : BodyExec) (ctx : AmlContext) (stream : List Nat) :
    AmlContext × Except AmlError Unit :=
  if stream.isEmpty then (ctx, .error .UnexpectedEndOfStream)
  else
    match exec stream ctx with
    | (ctx, .ok) => (ctx, .ok ())
    | (ctx, .err e) => (ctx, .error e)
    | (ctx, .ret _) => (ctx, .error .MalformedStream)
    | (ctx, .brk) => (ctx, .error .MalformedStream)
    | (ctx, .cont) => (ctx, .error .MalformedStream)

/-- Whether the level's value map has an entry for the segment
(`level.values.contains_key(..)` in `lib.rs`). -/
def hasValue (level : NamespaceLevel) (seg : NameSeg) : Bool :=
  (lookupSeg level.values seg).isSome

/-- The visitor closure of `AmlContext::initialize_objects` (`lib.rs`): at a
`Device` level, evaluate `_STA` if the level has one (otherwise assume the
default status), invoke `_INI` when the device is present and has one, and
descend exactly when the device is present or functional; `Scope` levels
always descend; `Processor`, `PowerResource`, `ThermalZone` and
`MethodLocals` levels never do. -/
def initVisitor (exec : BodyExec) (path : AmlName) (level : NamespaceLevel)
    (ctx : AmlContext) : AmlContext × Except AmlError Bool :=
  match level.typ with
  | .Device =>
    let staStep : AmlContext × Except AmlError StatusObject :=
      if hasValue level "_STA" then
        match AmlName.resolve ⟨false, 0, ["_STA"]⟩ path with
        | .error e => (ctx, .error e)
        | .ok staName =>
          match invoke_method exec ctx staName [] with
          | (ctx1, .error e) => (ctx1, .error e)
          | (ctx1, .ok v) =>
            match v.as_status with
            | .error e => (ctx1, .error e)
            | .ok st => (ctx1, .ok st)
      else (ctx, .ok StatusObject.default)
    match staStep with
    | (ctx1, .error e) => (ctx1, .error e)
    | (ctx1, .ok status) =>
      if status.present && hasValue level "_INI" then
        match AmlName.resolve ⟨false, 0, ["_INI"]⟩ path with
        | .error e => (ctx1, .error e)
        | .ok iniName =>
          match invoke_method exec ctx1 iniName [] with
          | (ctx2, .error e) => (ctx2, .error e)
          | (ctx2, .ok _) => (ctx2, .ok (status.present || status.functional))
      else (ctx1, .ok (status.present || status.functional))
  | .Scope => (ctx, .ok true)
  | .Processor => (ctx, .ok false)
  | .PowerResource => (ctx, .ok false)
  | .ThermalZone => (ctx, .ok false)
  | .MethodLocals => (ctx, .ok false)

/-- A namespace-traversal visitor: at an absolute name and level, transform
the interpreter context and answer whether to descend. -/
abbrev Visitor := AmlName → NamespaceLevel → AmlContext → AmlContext × Except AmlError Bool

mutual

/-- Modelled from the spec: `Namespace::traverse` (`namespace.rs`, not under
`src/`): "pre-order walk yielding (absolute-name, level); the visitor returns
whether to descend into children".  The walk runs over a snapshot of the
level tree (the source clones the namespace) while the visitor mutates the
live context. -/
def traverseLevel (v : Visitor) (path : AmlName) :
    NamespaceLevel → AmlContext → AmlContext × Except AmlError Unit
  | .mk typ children values, ctx =>
    match v path (.mk typ children values) ctx with
    | (ctx, .error e) => (ctx, .error e)
    | (ctx, .ok descend) =>
      if descend then traverseChildren v path children ctx else (ctx, .ok ())

/-- The child walk of `traverseLevel`, in declaration order. -/
def traverseChildren (v : Visitor) (path : AmlName) :
    List (NameSeg × NamespaceLevel) → AmlContext → AmlContext × Except AmlError Unit
  | [], ctx => (ctx, .ok ())
  | (seg, child) :: rest, ctx =>
    match traverseLevel v ⟨true, 0, path.segments ++ [seg]⟩ child ctx with
    | (ctx, .error e) => (ctx, .error e)
    | (ctx, .ok _) => traverseChildren v path rest ctx

end

/-- `AmlContext::initialize_objects` (`lib.rs`): invoke `\_SB._INI` if it
exists (a missing value is swallowed), then traverse a snapshot of the
namespace with the device-initialization visitor. -/
def initialize_objects (exec : BodyExec) (ctx0 : AmlContext) :
    AmlContext × Except AmlError Unit :=
  match invoke_method exec ctx0 ⟨true, 0, ["_SB", "_INI"]⟩ [] with
  | (ctx, .ok _) => traverseLevel (initVisitor exec) AmlName.root ctx.ns ctx
  | (ctx, .error (.ValueDoesNotExist _)) =>
    traverseLevel (initVisitor exec) AmlName.root ctx.ns ctx
  | (ctx, .error e) => (ctx, .error e)

/-- Unwrap a namespace operation that `add_predefined_objects` `.unwrap()`s
(each succeeds on the freshly constructed namespace; the fallback is never
reached). -/
def unwrapNs (r : Except AmlError NamespaceLevel) (fallback : NamespaceLevel) :
    NamespaceLevel :=
  match r with
  | .ok n => n
  | .error _ => fallback

/-- `AmlContext::add_predefined_objects` (`lib.rs`): pre-creates the
`\_GPE`, `\_SB`, `\_SI`, `\_PR`, `\_TZ` scopes, `\_OS`, the `\_OSI` native
method and `\_REV`. -/
def add_predefined_objects (ns : NamespaceLevel) : NamespaceLevel :=
  let ns := unwrapNs (addLevel ns ["_GPE"] .Scope) ns
  let ns := unwrapNs (addLevel ns ["_SB"] .Scope) ns
  let ns := unwrapNs (addLevel ns ["_SI"] .Scope) ns
  let ns := unwrapNs (addLevel ns ["_PR"] .Scope) ns
  let ns := unwrapNs (addLevel ns ["_TZ"] .Scope) ns
  let ns := unwrapNs (addValue ns ["_OS"] (.String "Microsoft Windows NT")) ns
  let ns := unwrapNs (addValue ns ["_OSI"] (.Method ⟨1, false, 0⟩ (.native .osi))) ns
  let ns := unwrapNs (addValue ns ["_REV"] (.Integer 2)) ns
  ns

/-- `AmlContext::new` (`lib.rs`): fresh namespace with the predefined
objects, no active method, scope at the root. -/
def AmlContext.new (host : Host) : AmlContext :=
  { host := host
    ns := add_predefined_objects NamespaceLevel.empty
    method_context := none
    current_scope := AmlName.root }

/-- The context as constructed by `AmlContext::new` with an idle host. -/
def initialContext : AmlContext := AmlContext.new ⟨[], []⟩

/-- The strings for which the `\_OSI` allow-list of
`add_predefined_objects` answers all-ones. -/
def osiStrings : List NameSeg :=
  ["Windows 2000", "Windows 2001", "Windows 2001 SP1", "Windows 2001 SP2",
   "Windows 2001.1", "Windows 2001.1 SP1", "Windows 2006", "Windows 2006 SP1",
   "Windows 2006 SP2", "Windows 2006.1", "Windows 2009", "Windows 2012",
   "Windows 2013", "Windows 2015", "Windows 2016", "Windows 2017",
   "Windows 2017.2", "Windows 2018", "Windows 2018.2", "Windows 2019",
   "Darwin", "Extended Address Space Descriptor", "3.0 Thermal Model",
   "3.0 _SCP Extensions"]

/-- A body parser that completes immediately (an empty term list). -/
def trivialExec : BodyExec := fun _ ctx => (ctx, .ok)

/-- A body parser whose body propagates `Break` to the top. -/
def brkExec : BodyExec := fun _ ctx => (ctx, .brk)

/-- A body parser whose body propagates `Continue` to the top. -/
def contExec : BodyExec := fun _ ctx => (ctx, .cont)

/-- The body `Store(0x99, Local0)`: one store statement into a local, then
the term list completes. -/
def storeLocalExec : BodyExec := fun _ ctx =>
  match store ctx (.local 0) (.Integer 0x99) with
  | (c, .ok _) => (c, .ok)
  | (c, .err e) => (c, .err e)
  | (c, .panicked) => (c, .err .Unimplemented)

/-- A zero-argument method with an (abstracted) AML body. -/
def m000 : AmlValue := .Method ⟨0, false, 0⟩ (.aml [])

/-- The absolute name `\M000`. -/
def nameM000 : AmlName := ⟨true, 0, ["M000"]⟩

/-- The initial context extended with the method `\M000`. -/
def ctxM000 : AmlContext :=
  { initialContext with
    ns := unwrapNs (addValue initialContext.ns ["M000"] m000) initialContext.ns }

/-- The index register of the spec's indexed-field scenario: a whole-byte
`SystemIO` field at port 0x70. -/
def indexRegister : AmlValue :=
  .FieldUnit ⟨.systemIo, 0x70, 8⟩ ⟨.Byte, .NoLock, .Preserve⟩ 0 8

/-- The data register of the spec's indexed-field scenario: a whole-byte
`SystemIO` field at port 0x71. -/
def dataRegister : AmlValue :=
  .FieldUnit ⟨.systemIo, 0x71, 8⟩ ⟨.Byte, .NoLock, .Preserve⟩ 0 8

/-- A context whose host answers 0x2A on port 0x71 and has an empty trace. -/
def cmosCtx : AmlContext :=
  { host := ⟨[(0x71, 0x2A)], []⟩
    ns := NamespaceLevel.empty
    method_context := none
    current_scope := AmlName.root }

/-- A `Device` level with a plain `_STA` value of 0 (absent, non-functional). -/
def deviceStaZero : NamespaceLevel := .mk .Device [] [("_STA", .Integer 0)]

/-- A `Device` level without `_STA` but with an `_INI` object. -/
def deviceNoSta : NamespaceLevel := .mk .Device [] [("_INI", .Integer 7)]

/-- A context whose namespace holds the two sample devices `\D0__` and
`\D1__`. -/
def ctxDev : AmlContext :=
  { host := ⟨[], []⟩
    ns := .mk .Scope [("D0__", deviceStaZero), ("D1__", deviceNoSta)] []
    method_context := none
    current_scope := AmlName.root }

/-- Lookup after removing a key yields nothing. -/
theorem lookupSeg_removeSeg {α : Type} (l : List (NameSeg × α)) (k : NameSeg) :
    lookupSeg (removeSeg l k) k = none := by
  induction l with
  | nil => rfl
  | cons p rest ih =>
    obtain ⟨a, b⟩ := p
    by_cases h : a = k <;> simp [removeSeg, lookupSeg, h, ih]

/-- Lookup after replacing a present key yields the replacement. -/
theorem lookupSeg_replaceSeg {α : Type} (l : List (NameSeg × α)) (k : NameSeg)
    (v c : α) (h : lookupSeg l k = some c) :
    lookupSeg (replaceSeg l k v) k = some v := by
  induction l with
  | nil => simp [lookupSeg] at h
  | cons p rest ih =>
    obtain ⟨a, b⟩ := p
    by_cases hak : a = k
    · simp [replaceSeg, lookupSeg, hak]
    · simp [replaceSeg, lookupSeg, hak] at h ⊢
      exact ih h

/-- `removeLevel` succeeds on a non-root path whose level exists, and that
level no longer exists afterwards. -/
theorem removeLevel_levelExists :
    ∀ (segs : List NameSeg) (ns : NamespaceLevel), segs ≠ [] →
      levelExists ns segs = true →
      ∃ ns2, removeLevel ns segs = .ok ns2 ∧ levelExists ns2 segs = false := by
  intro segs
  induction segs with
  | nil => intro ns h; exact absurd rfl h
  | cons seg rest ih =>
    intro ns _ hex
    obtain ⟨t, c, v⟩ := ns
    cases hc : lookupSeg c seg with
    | none => simp [levelExists, hc] at hex
    | some child =>
      cases rest with
      | nil =>
        refine ⟨.mk t (removeSeg c seg) v, ?_, ?_⟩
        · simp [removeLevel, hc]
        · simp [levelExists, lookupSeg_removeSeg]
      | cons r2 rs =>
        have hex2 : levelExists child (r2 :: rs) = true := by
          simpa [levelExists, hc] using hex
        obtain ⟨c2, hrm, hne⟩ := ih child (by simp) hex2
        refine ⟨.mk t (replaceSeg c seg c2) v, ?_, ?_⟩
        · simp [removeLevel, hc, hrm]
        · simp [levelExists, lookupSeg_replaceSeg c seg c2 child hc, hne]

/-- C10: `parse_table` on an empty byte stream fails with
`UnexpectedEndOfStream` before consulting the term-list parser, returning the
context — namespace included — exactly as it was. -/
theorem parse_table_empty_stream (exec : BodyExec) (ctx : AmlContext) :
    parse_table exec ctx [] = (ctx, .error .UnexpectedEndOfStream) := rfl

/-- C9: a store with `Target::Debug` does not return normally for any value:
the source's `unimplemented!()` arm panics (the claim asks for a no-op that
at minimum returns). -/
theorem store_debug_panics (ctx : AmlContext) (v : AmlValue) :
    store ctx .debug v = (ctx, .panicked) := rfl

/-- C2: evaluation of `read_indexed_field` at the claim's input (Byte access,
byte registers at ports 0x70/0x71, byte offset 5, 8-bit field, data port
answering 0x2A).  Because the access size is computed in bits (8) but looped
over as a byte count, the code performs eight index-write/data-read pairs at
offsets 5..12 — one transfer per bit of the access width — and returns the
eight accumulated bytes 0x2A2A2A2A2A2A2A2A, not the single transfer
`write_io_u8(0x70, 5)`, `read_io_u8(0x71)` with result 0x2A that the claim
states. -/
theorem read_indexed_field_transfers_per_bit :
    read_indexed_field indexRegister dataRegister ⟨.Byte, .NoLock, .Preserve⟩
        5 8 cmosCtx =
      ({ cmosCtx with
          host :=
            ⟨[(0x71, 0x2A)],
             [.writeIo8 0x70 5, .readIo8 0x71 0x2A,
              .writeIo8 0x70 6, .readIo8 0x71 0x2A,
              .writeIo8 0x70 7, .readIo8 0x71 0x2A,
              .writeIo8 0x70 8, .readIo8 0x71 0x2A,
              .writeIo8 0x70 9, .readIo8 0x71 0x2A,
              .writeIo8 0x70 10, .readIo8 0x71 0x2A,
              .writeIo8 0x70 11, .readIo8 0x71 0x2A,
              .writeIo8 0x70 12, .readIo8 0x71 0x2A]⟩ },
       .ok (.Integer 0x2A2A2A2A2A2A2A2A)) := rfl

/-- C8: evaluation of `write_indexed_field` at a `WriteAsOnes` write of a
16-bit field (value 0, offset 0, the byte registers at 0x70/0x71).  The
access size is computed in bits (16) but looped over as a byte count; after
the first eight byte-transfers (bytes 2..7 of the 64-bit mask are written as
ones) the ninth iteration shifts the 64-bit mask right by 64, a Rust shift
overflow, so the write panics instead of writing all-ones to the bits outside
the 16-bit field as the claim states.  No read precedes the write — that part
of the claim matches the code — but the write itself cannot complete for any
field longer than 8 bits. -/
theorem write_indexed_field_ones_shift_overflow :
    write_indexed_field indexRegister dataRegister ⟨.Byte, .NoLock, .WriteAsOnes⟩
        0 16 (.Integer 0) cmosCtx =
      ({ cmosCtx with
          host :=
            ⟨[(0x71, 0x2A)],
             [.writeIo8 0x70 0, .writeIo8 0x71 0,
              .writeIo8 0x70 1, .writeIo8 0x71 0,
              .writeIo8 0x70 2, .writeIo8 0x71 255,
              .writeIo8 0x70 3, .writeIo8 0x71 255,
              .writeIo8 0x70 4, .writeIo8 0x71 255,
              .writeIo8 0x70 5, .writeIo8 0x71 255,
              .writeIo8 0x70 6, .writeIo8 0x71 255,
              .writeIo8 0x70 7, .writeIo8 0x71 255]⟩ },
       .panicked) := rfl

/-- C4: `invoke_method` on a path that resolves to a non-`Method` value
returns that value verbatim with the whole context — frame, scope,
namespace — unchanged. -/
theorem invoke_method_non_method_verbatim (exec : BodyExec) (ctx : AmlContext)
    (path : AmlName) (args : Args) (v : AmlValue)
    (hval : getByPath ctx.ns path.segments = .ok v)
    (hnm : ∀ flags code, v ≠ .Method flags code) :
    invoke_method exec ctx path args = (ctx, .ok v) := by
  cases v
  case Method flags code => exact absurd rfl (hnm flags code)
  all_goals simp [invoke_method, hval]

/-- Witness for C4: the pre-seeded `\_OS` object is a plain string, and
invoking it returns the string with the initial context untouched. -/
theorem invoke_method_non_method_verbatim_witness :
    invoke_method trivialExec initialContext ⟨true, 0, ["_OS"]⟩ [] =
      (initialContext, .ok (.String "Microsoft Windows NT")) :=
  invoke_method_non_method_verbatim trivialExec initialContext ⟨true, 0, ["_OS"]⟩
    [] (.String "Microsoft Windows NT") rfl (fun _ _ h => by cases h)

/-- C1: whatever propagation the method body produced — completion, a
`Return` value, `Break`/`Continue`, or a user error — once `invoke_method`
returns, the surrounding `MethodContext` and `current_scope` equal their
pre-call values and the `MethodLocals` level created under the method's
absolute name no longer exists. -/
theorem invoke_method_frame_hygiene (exec : BodyExec) (ctx : AmlContext)
    (path : AmlName) (args : Args) (flags : MethodFlags) (code : MethodCode)
    (ns1 : NamespaceLevel)
    (hval : getByPath ctx.ns path.segments = .ok (.Method flags code))
    (hadd : addLevel ctx.ns path.segments .MethodLocals = .ok ns1)
    (hne : path.segments ≠ [])
    (hlvl : levelExists (runMethodBody exec code (framedCtx ctx path args ns1)).1.ns
        path.segments = true) :
    (invoke_method exec ctx path args).1.method_context = ctx.method_context ∧
    (invoke_method exec ctx path args).1.current_scope = ctx.current_scope ∧
    levelExists (invoke_method exec ctx path args).1.ns path.segments = false := by
  obtain ⟨ns2, hrm, hnot⟩ := removeLevel_levelExists path.segments _ hne hlvl
  simp [invoke_method, hval, hadd, hrm, hnot]

/-- Witness for C1 at the concrete method `\M000` with a trivially completing
body. -/
theorem invoke_method_frame_hygiene_witness :
    (invoke_method trivialExec ctxM000 nameM000 []).1.method_context =
        ctxM000.method_context ∧
    (invoke_method trivialExec ctxM000 nameM000 []).1.current_scope =
        ctxM000.current_scope ∧
    levelExists (invoke_method trivialExec ctxM000 nameM000 []).1.ns
        nameM000.segments = false :=
  invoke_method_frame_hygiene trivialExec ctxM000 nameM000 [] ⟨0, false, 0⟩
    (.aml []) _ rfl rfl (by simp [nameM000]) rfl

/-- C3: when the AML body parses to completion without propagating `Return`,
`invoke_method` returns `Ok(Integer(0))`. -/
theorem invoke_method_implicit_zero (exec : BodyExec) (ctx : AmlContext)
    (path : AmlName) (args : Args) (flags : MethodFlags) (code : List Nat)
    (ns1 : NamespaceLevel)
    (hval : getByPath ctx.ns path.segments = .ok (.Method flags (.aml code)))
    (hadd : addLevel ctx.ns path.segments .MethodLocals = .ok ns1)
    (hne : path.segments ≠ [])
    (hok : (exec code (framedCtx ctx path args ns1)).2 = .ok)
    (hlvl : levelExists (exec code (framedCtx ctx path args ns1)).1.ns
        path.segments = true) :
    (invoke_method exec ctx path args).2 = .ok (.Integer 0) := by
  obtain ⟨ns2, hrm, _⟩ :=
    removeLevel_levelExists path.segments _ hne (by simpa [runMethodBody] using hlvl)
  simp [invoke_method, runMethodBody, hval, hadd, hok, hrm]

/-- Witness for C3: invoking the zero-argument `\M000` whose body is the
single statement `Store(0x99, Local0)` returns `Integer(0)`. -/
theorem invoke_method_implicit_zero_witness :
    (invoke_method storeLocalExec ctxM000 nameM000 []).2 = .ok (.Integer 0) :=
  invoke_method_implicit_zero storeLocalExec ctxM000 nameM000 [] ⟨0, false, 0⟩
    [] _ rfl rfl (by simp [nameM000]) rfl rfl

/-- C5: a `Break` (resp. `Continue`) propagation reaching the top of a method
body makes `invoke_method` return `Err(BreakInInvalidPosition)`
(resp. `Err(ContinueInInvalidPosition)`), and the `MethodLocals` level is
torn down all the same. -/
theorem invoke_method_break_continue_errors (exec : BodyExec) (ctx : AmlContext)
    (path : AmlName) (args : Args) (flags : MethodFlags) (code : List Nat)
    (ns1 : NamespaceLevel)
    (hval : getByPath ctx.ns path.segments = .ok (.Method flags (.aml code)))
    (hadd : addLevel ctx.ns path.segments .MethodLocals = .ok ns1)
    (hne : path.segments ≠ [])
    (hlvl : levelExists (exec code (framedCtx ctx path args ns1)).1.ns
        path.segments = true) :
    ((exec code (framedCtx ctx path args ns1)).2 = .brk →
      (invoke_method exec ctx path args).2 = .error .BreakInInvalidPosition) ∧
    ((exec code (framedCtx ctx path args ns1)).2 = .cont →
      (invoke_method exec ctx path args).2 = .error .ContinueInInvalidPosition) ∧
    levelExists (invoke_method exec ctx path args).1.ns path.segments = false := by
  obtain ⟨ns2, hrm, hnot⟩ :=
    removeLevel_levelExists path.segments _ hne (by simpa [runMethodBody] using hlvl)
  refine ⟨fun hb => ?_, fun hc => ?_, ?_⟩
  · simp [invoke_method, runMethodBody, hval, hadd, hb, hrm]
  · simp [invoke_method, runMethodBody, hval, hadd, hc, hrm]
  · simp [invoke_method, runMethodBody, hval, hadd, hrm, hnot]

/-- Witness for C5: the method `\M000` run with a body propagating `Break`
(resp. `Continue`) to the top. -/
theorem invoke_method_break_continue_errors_witness :
    (invoke_method brkExec ctxM000 nameM000 []).2 = .error .BreakInInvalidPosition ∧
    (invoke_method contExec ctxM000 nameM000 []).2 = .error .ContinueInInvalidPosition :=
  ⟨(invoke_method_break_continue_errors brkExec ctxM000 nameM000 [] ⟨0, false, 0⟩
      [] _ rfl rfl (by simp [nameM000]) rfl).1 rfl,
   (invoke_method_break_continue_errors contExec ctxM000 nameM000 [] ⟨0, false, 0⟩
      [] _ rfl rfl (by simp [nameM000]) rfl).2.1 rfl⟩


/-- The `\_OSI` decision answers `true` exactly on the fixed allow-list. -/
theorem osiSupport_eq_true_iff (s : NameSeg) :
    osiSupport s = true ↔ s ∈ osiStrings := by
  by_cases h1 : s = "Windows 2000"
  · subst h1; decide
  by_cases h2 : s = "Windows 2001"
  · subst h2; decide
  by_cases h3 : s = "Windows 2001 SP1"
  · subst h3; decide
  by_cases h4 : s = "Windows 2001 SP2"
  · subst h4; decide
  by_cases h5 : s = "Windows 2001.1"
  · subst h5; decide
  by_cases h6 : s = "Windows 2001.1 SP1"
  · subst h6; decide
  by_cases h7 : s = "Windows 2006"
  · subst h7; decide
  by_cases h8 : s = "Windows 2006 SP1"
  · subst h8; decide
  by_cases h9 : s = "Windows 2006 SP2"
  · subst h9; decide
  by_cases h10 : s = "Windows 2006.1"
  · subst h10; decide
  by_cases h11 : s = "Windows 2009"
  · subst h11; decide
  by_cases h12 : s = "Windows 2012"
  · subst h12; decide
  by_cases h13 : s = "Windows 2013"
  · subst h13; decide
  by_cases h14 : s = "Windows 2015"
  · subst h14; decide
  by_cases h15 : s = "Windows 2016"
  · subst h15; decide
  by_cases h16 : s = "Windows 2017"
  · subst h16; decide
  by_cases h17 : s = "Windows 2017.2"
  · subst h17; decide
  by_cases h18 : s = "Windows 2018"
  · subst h18; decide
  by_cases h19 : s = "Windows 2018.2"
  · subst h19; decide
  by_cases h20 : s = "Windows 2019"
  · subst h20; decide
  by_cases h21 : s = "Darwin"
  · subst h21; decide
  by_cases h22 : s = "Linux"
  · subst h22; decide
  by_cases h23 : s = "Extended Address Space Descriptor"
  · subst h23; decide
  by_cases h24 : s = "Module Device"
  · subst h24; decide
  by_cases h25 : s = "3.0 Thermal Model"
  · subst h25; decide
  by_cases h26 : s = "3.0 _SCP Extensions"
  · subst h26; decide
  by_cases h27 : s = "Processor Aggregator Device"
  · subst h27; decide
  unfold osiSupport
  rw [if_neg h1, if_neg h2, if_neg h3, if_neg h4, if_neg h5, if_neg h6,
    if_neg h7, if_neg h8, if_neg h9, if_neg h10, if_neg h11, if_neg h12,
    if_neg h13, if_neg h14, if_neg h15, if_neg h16, if_neg h17, if_neg h18,
    if_neg h19, if_neg h20, if_neg h21, if_neg h22, if_neg h23, if_neg h24,
    if_neg h25, if_neg h26, if_neg h27]
  constructor
  · intro h; exact absurd h (by decide)
  · intro hm
    simp only [osiStrings, List.mem_cons, List.not_mem_nil, or_false] at hm
    rcases hm with rfl | rfl | rfl | rfl | rfl | rfl | rfl | rfl | rfl | rfl |
      rfl | rfl | rfl | rfl | rfl | rfl | rfl | rfl | rfl | rfl | rfl | rfl | rfl | rfl
    exacts [absurd rfl h1, absurd rfl h2, absurd rfl h3, absurd rfl h4,
      absurd rfl h5, absurd rfl h6, absurd rfl h7, absurd rfl h8,
      absurd rfl h9, absurd rfl h10, absurd rfl h11, absurd rfl h12,
      absurd rfl h13, absurd rfl h14, absurd rfl h15, absurd rfl h16,
      absurd rfl h17, absurd rfl h18, absurd rfl h19, absurd rfl h20,
      absurd rfl h21, absurd rfl h23, absurd rfl h25, absurd rfl h26]

set_option maxHeartbeats 2000000 in
/-- C6: applying the pre-seeded `\_OSI` native method to one string argument
returns the all-ones 64-bit integer exactly for the fixed allow-list
(Windows 2000-2019, Darwin, Extended Address Space Descriptor, 3.0 Thermal
Model, 3.0 _SCP Extensions) and integer 0 for every other string — in
particular for Linux, Module Device and Processor Aggregator Device, which
are not in the list. -/
theorem osi_allow_list (exec : BodyExec) (s : NameSeg) :
    (invoke_method exec initialContext ⟨true, 0, ["_OSI"]⟩ [.String s]).2 =
      .ok (.Integer (if s ∈ osiStrings then 0xffffffffffffffff else 0)) := by
  have h0 : (invoke_method exec initialContext ⟨true, 0, ["_OSI"]⟩ [.String s]).2 =
      .ok (cond (osiSupport s) AmlValue.ones AmlValue.zero) := rfl
  rw [h0]
  cases hs : osiSupport s with
  | true => rw [if_pos ((osiSupport_eq_true_iff s).1 hs)]; rfl
  | false =>
    rw [if_neg (fun hm => by rw [(osiSupport_eq_true_iff s).2 hm] at hs; cases hs)]
    rfl

/-- C7: the device-gating of `initialize_objects`, stated on its traversal
visitor.  At a `Device` level: with no `_STA` value the status defaults to
fully present and functional and `_INI` (when present) is invoked; when
`_STA` evaluates to integer 0 the result context is exactly the post-`_STA`
context (no `_INI` invocation) and the visitor answers no-descent; the
descend answer is always `present-bit OR functional-bit` (bits 0 and 3);
`Scope` levels always descend and `Processor`, `PowerResource`,
`ThermalZone`, `MethodLocals` levels never do. -/
theorem initialize_objects_device_gating (exec : BodyExec) (path : AmlName)
    (level : NamespaceLevel) (ctx : AmlContext) :
    (level.typ = .Scope → initVisitor exec path level ctx = (ctx, .ok true)) ∧
    (level.typ = .Processor ∨ level.typ = .PowerResource ∨
        level.typ = .ThermalZone ∨ level.typ = .MethodLocals →
      initVisitor exec path level ctx = (ctx, .ok false)) ∧
    (level.typ = .Device → hasValue level "_STA" = false →
      (hasValue level "_INI" = false →
        initVisitor exec path level ctx = (ctx, .ok true)) ∧
      (hasValue level "_INI" = true →
        initVisitor exec path level ctx =
          (match invoke_method exec ctx ⟨true, 0, path.segments ++ ["_INI"]⟩ [] with
           | (c, .ok _) => (c, .ok true)
           | (c, .error e) => (c, .error e)))) ∧
    (level.typ = .Device → hasValue level "_STA" = true →
      ∀ ctx1 v,
        invoke_method exec ctx ⟨true, 0, path.segments ++ ["_STA"]⟩ [] =
          (ctx1, .ok (.Integer v)) →
        (v = 0 → initVisitor exec path level ctx = (ctx1, .ok false)) ∧
        (hasValue level "_INI" = false ∨ v.testBit 0 = false →
          initVisitor exec path level ctx =
            (ctx1, .ok (v.testBit 0 || v.testBit 3))) ∧
        (hasValue level "_INI" = true → v.testBit 0 = true →
          initVisitor exec path level ctx =
            (match invoke_method exec ctx1 ⟨true, 0, path.segments ++ ["_INI"]⟩ [] with
             | (c, .ok _) => (c, .ok (v.testBit 0 || v.testBit 3))
             | (c, .error e) => (c, .error e)))) := by
  refine ⟨?_, ?_, ?_, ?_⟩
  · intro ht
    simp [initVisitor, ht]
  · intro ht
    rcases ht with ht | ht | ht | ht <;> simp [initVisitor, ht]
  · intro ht hsta
    constructor
    · intro hini
      simp [initVisitor, ht, hsta, hini, StatusObject.default]
    · intro hini
      simp only [initVisitor, ht, hsta, hini, StatusObject.default,
        AmlName.resolve, Bool.false_eq_true, if_false, Bool.and_true, if_true]
      rcases h : invoke_method exec ctx ⟨true, 0, path.segments ++ ["_INI"]⟩ [] with ⟨c, r⟩
      cases r <;> simp
  · intro ht hsta ctx1 v heq
    refine ⟨?_, ?_, ?_⟩
    · intro hv
      subst hv
      simp [initVisitor, ht, hsta, heq, AmlName.resolve, AmlValue.as_status,
        Nat.zero_testBit]
    · intro hcase
      rcases hcase with hini | hbit
      · simp [initVisitor, ht, hsta, heq, hini, AmlName.resolve, AmlValue.as_status]
      · simp [initVisitor, ht, hsta, heq, hbit, AmlName.resolve, AmlValue.as_status]
    · intro hini hbit
      rcases h : invoke_method exec ctx1 ⟨true, 0, path.segments ++ ["_INI"]⟩ [] with ⟨c, r⟩
      cases r <;>
        simp [initVisitor, ht, hsta, heq, hini, hbit, AmlName.resolve,
          AmlValue.as_status, h]

/-- Witness for C7: the device `\D0__` (whose `_STA` object is the plain
integer 0) is not descended into, the `_STA`-less device `\D1__` has its
`_INI` evaluated and is descended into, and a `MethodLocals` level is never
descended into. -/
theorem initialize_objects_device_gating_witness :
    initVisitor trivialExec ⟨true, 0, ["D0__"]⟩ deviceStaZero ctxDev =
      (ctxDev, .ok false) ∧
    initVisitor trivialExec ⟨true, 0, ["D1__"]⟩ deviceNoSta ctxDev =
      (ctxDev, .ok true) ∧
    initVisitor trivialExec AmlName.root (.mk .MethodLocals [] []) ctxDev =
      (ctxDev, .ok false) := by
  refine ⟨?_, ?_, ?_⟩
  · exact ((initialize_objects_device_gating trivialExec ⟨true, 0, ["D0__"]⟩
      deviceStaZero ctxDev).2.2.2 rfl rfl ctxDev 0 rfl).1 rfl
  · exact (((initialize_objects_device_gating trivialExec ⟨true, 0, ["D1__"]⟩
      deviceNoSta ctxDev).2.2.1 rfl rfl).2 rfl).trans rfl
  · exact (initialize_objects_device_gating trivialExec AmlName.root
      (.mk .MethodLocals [] []) ctxDev).2.1 (Or.inr (Or.inr (Or.inr rfl)))
